import Mathlib

/-!
Verification of the goyeelight client library (Yeelight LED bulb control over
line-delimited JSON on TCP).  The definitions below shallowly embed the Go
source: the JSON codec models `encoding/json.Unmarshal` as used by the
`response` / `GetProp` functions, the command builders mirror the string
concatenation of each catalog method, and the transport is embedded as an
explicit event trace parameterised by an abstract network environment.
-/

namespace Goyeelight

/-! ### JSON value model

Values produced by `encoding/json` when decoding a response line.  Numbers
keep their raw token text (the code only ever passes numbers through as raw
bytes via `json.RawMessage`, or decodes `error.code` into an int). -/

inductive Json where
  | null : Json
  | bool : Bool → Json
  | num : String → Json
  | str : String → Json
  | arr : List Json → Json
  | obj : List (String × Json) → Json
deriving Repr

/-! ### JSON parser

Models the syntax check plus decode performed by `json.Unmarshal`.
`Unmarshal` first validates the whole input (`checkValid`), so a
syntactically invalid line leaves the target struct untouched; this is
modelled by `jsonParse` returning `none`.  Simplifications that no claim
exercises: `\u` escapes and raw control characters in strings are rejected,
and number tokens are kept as raw text. -/

def wsChars : List Char := [' ', '\t', '\n', '\r']

def skipWs : List Char → List Char
  | [] => []
  | c :: cs => if wsChars.contains c then skipWs cs else c :: cs

/-- Table of two-character escapes paired with the characters they denote. -/
def escTable : List (Char × Char) :=
  [('"', '"'), ('\\', '\\'), ('/', '/'), ('n', '\n'), ('t', '\t'),
   ('r', '\r'), ('b', '\x08'), ('f', '\x0c')]

def escChar (c : Char) : Option Char :=
  (escTable.find? fun pr => pr.1 == c).map fun pr => pr.2

def parseStringChars : Nat → List Char → Option (List Char × List Char)
  | 0, _ => none
  | _ + 1, [] => none
  | _ + 1, '"' :: rest => some ([], rest)
  | f + 1, '\\' :: cs =>
    match cs with
    | [] => none
    | c :: rest =>
      match escChar c with
      | none => none
      | some e =>
        match parseStringChars f rest with
        | some (s, r) => some (e :: s, r)
        | none => none
  | f + 1, c :: rest =>
    match parseStringChars f rest with
    | some (s, r) => some (c :: s, r)
    | none => none

def parseExpDigits (e : Char) (sign : List Char) (cs : List Char) :
    Option (List Char × List Char) :=
  let p := cs.span Char.isDigit
  if p.1.isEmpty then none else some (e :: sign ++ p.1, p.2)

def parseExpSign (e : Char) (cs : List Char) : Option (List Char × List Char) :=
  match cs with
  | '+' :: r => parseExpDigits e ['+'] r
  | '-' :: r => parseExpDigits e ['-'] r
  | _ => parseExpDigits e [] cs

def parseExp (cs : List Char) : Option (List Char × List Char) :=
  match cs with
  | 'e' :: r => parseExpSign 'e' r
  | 'E' :: r => parseExpSign 'E' r
  | _ => some ([], cs)

def parseNumCore (cs : List Char) : Option (List Char × List Char) :=
  let p := cs.span Char.isDigit
  if p.1.isEmpty then none
  else
    match p.2 with
    | '.' :: r2 =>
      let q := r2.span Char.isDigit
      if q.1.isEmpty then none
      else
        match parseExp q.2 with
        | some (es, r4) => some (p.1 ++ '.' :: q.1 ++ es, r4)
        | none => none
    | _ =>
      match parseExp p.2 with
      | some (es, r4) => some (p.1 ++ es, r4)
      | none => none

def parseNumberTok (cs : List Char) : Option (String × List Char) :=
  match cs with
  | '-' :: r =>
    match parseNumCore r with
    | some (t, rest) => some (String.mk ('-' :: t), rest)
    | none => none
  | _ =>
    match parseNumCore cs with
    | some (t, rest) => some (String.mk t, rest)
    | none => none

mutual

def parseValue : Nat → List Char → Option (Json × List Char)
  | 0, _ => none
  | f + 1, cs =>
    match skipWs cs with
    | 'n' :: 'u' :: 'l' :: 'l' :: rest => some (Json.null, rest)
    | 't' :: 'r' :: 'u' :: 'e' :: rest => some (Json.bool true, rest)
    | 'f' :: 'a' :: 'l' :: 's' :: 'e' :: rest => some (Json.bool false, rest)
    | '"' :: rest =>
      match parseStringChars (rest.length + 1) rest with
      | some (s, r) => some (Json.str (String.mk s), r)
      | none => none
    | '[' :: rest =>
      match skipWs rest with
      | ']' :: r => some (Json.arr [], r)
      | cs2 =>
        match parseItems f cs2 with
        | some (vs, r) => some (Json.arr vs, r)
        | none => none
    | '\x7b' :: rest =>
      match skipWs rest with
      | '\x7d' :: r => some (Json.obj [], r)
      | cs2 =>
        match parseMembers f cs2 with
        | some (ms, r) => some (Json.obj ms, r)
        | none => none
    | cs1 =>
      match parseNumberTok cs1 with
      | some (t, r) => some (Json.num t, r)
      | none => none

def parseItems : Nat → List Char → Option (List Json × List Char)
  | 0, _ => none
  | f + 1, cs =>
    match parseValue f cs with
    | none => none
    | some (v, r) =>
      match skipWs r with
      | ',' :: r2 =>
        match parseItems f r2 with
        | some (vs, r3) => some (v :: vs, r3)
        | none => none
      | ']' :: r2 => some ([v], r2)
      | _ => none

def parseMembers : Nat → List Char → Option (List (String × Json) × List Char)
  | 0, _ => none
  | f + 1, cs =>
    match skipWs cs with
    | '"' :: r =>
      match parseStringChars (r.length + 1) r with
      | none => none
      | some (k, r1) =>
        match skipWs r1 with
        | ':' :: r2 =>
          match parseValue f r2 with
          | none => none
          | some (v, r3) =>
            match skipWs r3 with
            | ',' :: r4 =>
              match parseMembers f r4 with
              | some (ms, r5) => some ((String.mk k, v) :: ms, r5)
              | none => none
            | '\x7d' :: r4 => some ([(String.mk k, v)], r4)
            | _ => none
        | _ => none
    | _ => none

end

/-- Parse a whole input as one JSON value; trailing non-whitespace bytes make
the input invalid, exactly as `json.Unmarshal`'s validity check does. -/
def jsonParse (s : String) : Option Json :=
  match parseValue (s.length + 1) s.toList with
  | some (v, rest) =>
    match skipWs rest with
    | [] => some v
    | _ => none
  | none => none

/-! ### JSON serialization

`string(res.Result)` in the Go code returns the raw bytes of the `result`
value.  The model re-serializes the parsed value; for response lines written
without interior whitespace (the device wire format) this is byte-identical. -/

/-- Characters escaped on output, paired with their escape letter. -/
def escOutTable : List (Char × Char) :=
  [('"', '"'), ('\\', '\\'), ('\n', 'n'), ('\t', 't'), ('\r', 'r')]

def escCharOut (c : Char) : List Char :=
  match escOutTable.find? fun pr => pr.1 == c with
  | some pr => ['\\', pr.2]
  | none => [c]

def escapeString (s : String) : String :=
  String.mk (s.toList.foldr (fun c acc => escCharOut c ++ acc) [])

mutual

def serialize : Json → String
  | Json.null => "null"
  | Json.bool true => "true"
  | Json.bool false => "false"
  | Json.num raw => raw
  | Json.str s => "\"" ++ escapeString s ++ "\""
  | Json.arr xs => "[" ++ serializeItems xs ++ "]"
  | Json.obj ms => "\x7b" ++ serializeMembers ms ++ "\x7d"

def serializeItems : List Json → String
  | [] => ""
  | [x] => serialize x
  | x :: y :: xs => serialize x ++ "," ++ serializeItems (y :: xs)

def serializeMembers : List (String × Json) → String
  | [] => ""
  | [(k, v)] => "\"" ++ escapeString k ++ "\":" ++ serialize v
  | (k, v) :: m :: ms =>
    "\"" ++ escapeString k ++ "\":" ++ serialize v ++ "," ++ serializeMembers (m :: ms)

end

/-! ### Unmarshal models for the response structs

`ResponseOk` has field `Result json.RawMessage`.  `Unmarshal` fills it for
any present `"result"` member — including an explicit JSON `null`, whose raw
bytes `null` are stored, leaving the field non-nil.  The field stays nil
exactly when the line is not a syntactically valid JSON object or the member
is absent.  Duplicate members are decoded in order, so the last occurrence
wins.  (Go also matches field names case-insensitively and ignores the `id`
member's type; neither affects any behaviour modelled here.) -/

def fieldLast (ms : List (String × Json)) (k : String) : Option Json :=
  match ms with
  | [] => none
  | (k2, v) :: rest =>
    match fieldLast rest k with
    | some w => some w
    | none => if k2 == k then some v else none

def goUnmarshalOk (data : String) : Option Json :=
  match jsonParse data with
  | some (Json.obj fields) => fieldLast fields "result"
  | _ => none

/-- Error struct of the error-response shape (`error.code`, `error.message`). -/
structure Error where
  code : Int
  message : String
deriving Repr, DecidableEq

def natOfDigits (ds : List Char) : Nat :=
  ds.foldl (fun n c => n * 10 + (c.toNat - 48)) 0

/-- Decoding of a raw number token into an int field: a non-integral or
malformed token is a type error that leaves the zero value behind. -/
def decodeIntRaw (raw : String) : Int :=
  match raw.toList with
  | '-' :: ds =>
    if !ds.isEmpty && ds.all Char.isDigit then -(natOfDigits ds : Int) else 0
  | ds =>
    if !ds.isEmpty && ds.all Char.isDigit then (natOfDigits ds : Int) else 0

/-- Message extracted by unmarshalling the fields of a JSON object into
`ResponseError`: mismatched or missing members leave the zero value. -/
def errMessageOfFields (fields : List (String × Json)) : String :=
  match fieldLast fields "error" with
  | some (Json.obj efs) =>
    match fieldLast efs "message" with
    | some (Json.str m) => m
    | _ => ""
  | _ => ""

def errCodeOfFields (fields : List (String × Json)) : Int :=
  match fieldLast fields "error" with
  | some (Json.obj efs) =>
    match fieldLast efs "code" with
    | some (Json.num raw) => decodeIntRaw raw
    | _ => 0
  | _ => 0

/-- Unmarshal of a response line into `ResponseError` (the decode errors are
discarded by the caller, so a failed decode simply leaves the zero value). -/
def goUnmarshalError (line : String) : Error :=
  match jsonParse line with
  | some (Json.obj fields) => ⟨errCodeOfFields fields, errMessageOfFields fields⟩
  | _ => ⟨0, ""⟩

/-- The response handler (`func response(data string) (string, error)`):
unmarshal as `ResponseOk`; when `res.Result` is nil, re-unmarshal as
`ResponseError` and fail with `errors.New(res.Error.Message)`; otherwise
return `string(res.Result)`. -/
def response (data : String) : Except String String :=
  match goUnmarshalOk data with
  | some v => Except.ok (serialize v)
  | none => Except.error (goUnmarshalError data).message

/-- True exactly when the call succeeded (the returned `error` is nil). -/
def isSuccess (r : Except String String) : Bool :=
  match r with
  | Except.ok _ => true
  | Except.error _ => false

/-- True exactly when the line is a syntactically valid JSON object — the
shape required for `json.Unmarshal` into either response struct to succeed. -/
def parsesAsObject (line : String) : Bool :=
  match jsonParse line with
  | some (Json.obj _) => true
  | _ => false

/-! ### Transport model

`request` dials a fresh TCP connection, writes `cmd` via
`fmt.Fprintf(conn, cmd+"\r\n")`, reads one line, closes the connection, and
decodes with `response`.  The network is abstracted as a dial outcome plus a
device function from the bytes actually written to the line read back (or a
read error); the side effects are recorded as an explicit event trace. -/

inductive NetEvent where
  | dialAttempt : Bool → NetEvent
  | write : String → NetEvent
  | readLine : NetEvent
  | close : NetEvent
deriving Repr, DecidableEq

structure Net where
  dialErr : Option String
  device : String → Except String String

/-! Model of `fmt.Fprintf` with the command as format string and no operands: a `%`
directive consumes flags, width and precision, then renders its verb as
`%!v(MISSING)` since no operand is supplied (`%%` renders `%`, a trailing
`%` renders `%!(NOVERB)`). -/

def isFmtFlag (c : Char) : Bool :=
  ['+', '-', '#', ' ', '0'].contains c

def fmtAfterFlags (cs : List Char) : List Char :=
  let c1 := (cs.dropWhile isFmtFlag).dropWhile Char.isDigit
  match c1 with
  | '.' :: r => r.dropWhile Char.isDigit
  | _ => c1

def fmtLoop : Nat → List Char → List Char
  | 0, cs => cs
  | _ + 1, [] => []
  | f + 1, '%' :: rest =>
    match fmtAfterFlags rest with
    | [] => ('%' :: '!' :: "(NOVERB)".toList)
    | '%' :: r => '%' :: fmtLoop f r
    | c :: r => '%' :: '!' :: c :: "(MISSING)".toList ++ fmtLoop f r
  | f + 1, c :: rest => c :: fmtLoop f rest

def goFprintf (format : String) : String :=
  String.mk (fmtLoop (format.length + 1) format.toList)

/-- The bytes `request` writes to the socket for a command `cmd`. -/
def sendLine (cmd : String) : String :=
  goFprintf (cmd ++ "\r\n")

/-- The request primitive: dial (returning the dial error on failure), write
the command line, read one line, close the connection, then decode.  The
second component is the trace of socket events, in order. -/
def request (net : Net) (cmd : String) : Except String String × List NetEvent :=
  match net.dialErr with
  | some e => (Except.error e, [NetEvent.dialAttempt false])
  | none =>
    let wire := sendLine cmd
    let events := [NetEvent.dialAttempt true, NetEvent.write wire,
                   NetEvent.readLine, NetEvent.close]
    match net.device wire with
    | Except.error e => (Except.error e, events)
    | Except.ok data => (response data, events)

/-! ### Command catalog (encoded request lines, from the current source) -/

def getPropCmd (values : List String) : String :=
  (values.foldl (fun cmd value => cmd ++ "\"" ++ value ++ "\",")
    "\x7b\"id\":1,\"method\":\"get_prop\",\"params\":[") ++ "]\x7d"

def setCtAbxCmd (value effect duration : String) : String :=
  "\x7b\"id\":2,\"method\":\"set_ct_abx\",\"params\":[" ++ value ++ ",\"" ++
    effect ++ "\"," ++ duration ++ "]\x7d"

def setRGBCmd (value effect duration : String) : String :=
  "\x7b\"id\":3,\"method\":\"set_rgb\",\"params\":[" ++ value ++ ",\"" ++
    effect ++ "\"," ++ duration ++ "]\x7d"

def setHSVCmd (hue sat effect duration : String) : String :=
  "\x7b\"id\":4,\"method\":\"set_hsv\",\"params\":[" ++ hue ++ "," ++ sat ++
    ",\"" ++ effect ++ "\"," ++ duration ++ "]\x7d"

def setBrightCmd (brightness effect duration : String) : String :=
  "\x7b\"id\":5,\"method\":\"set_bright\",\"params\":[" ++ brightness ++
    ",\"" ++ effect ++ "\"," ++ duration ++ "]\x7d"

def setPowerCmd (power effect duration : String) : String :=
  "\x7b\"id\":6,\"method\":\"set_power\",\"params\":[\"" ++ power ++ "\",\"" ++
    effect ++ "\"," ++ duration ++ "]\x7d"

def toggleCmd : String :=
  "\x7b\"id\":7,\"method\":\"toggle\",\"params\":[]\x7d"

def setDefaultCmd : String :=
  "\x7b\"id\":8,\"method\":\"set_default\",\"params\":[]\x7d"

def startCfCmd (count action flowExpression : String) : String :=
  "\x7b\"id\":9,\"method\":\"start_cf\",\"params\":[" ++ count ++ "," ++
    action ++ ",\"" ++ flowExpression ++ "\"]\x7d"

def stopCfCmd : String :=
  "\x7b\"id\":10,\"method\":\"stop_cf\",\"params\":[]\x7d"

def setSceneCmd (cls values : String) : String :=
  "\x7b\"id\":11,\"method\":\"set_scene\",\"params\":[\"" ++ cls ++ "\"," ++
    values ++ "]\x7d"

def cronAddCmd (t value : String) : String :=
  "\x7b\"id\":12,\"method\":\"cron_add\",\"params\":[" ++ t ++ "," ++ value ++ "]\x7d"

def cronGetCmd (t : String) : String :=
  "\x7b\"id\":13,\"method\":\"cron_get\",\"params\":[" ++ t ++ "]\x7d"

def cronDelCmd (t : String) : String :=
  "\x7b\"id\":14,\"method\":\"cron_del\",\"params\":[" ++ t ++ "]\x7d"

def setAdjustCmd (action prop : String) : String :=
  "\x7b\"id\":15,\"method\":\"set_adjust\",\"params\":[\"" ++ action ++
    "\",\"" ++ prop ++ "\"]\x7d"

/-- The `SetAdjust` command line of the older source file (goyeelight.go,
line 178): the closing quote after `prop` is missing there. -/
def setAdjustCmdOld (action prop : String) : String :=
  "\x7b\"id\":15,\"method\":\"set_adjust\",\"params\":[\"" ++ action ++
    "\",\"" ++ prop ++ "]\x7d"

def setNameCmd (name : String) : String :=
  "\x7b\"id\":16,\"method\":\"set_name\",\"params\":[\"" ++ name ++ "\"]\x7d"

/-! ### API methods built on the request primitive -/

def SetPower (net : Net) (power effect duration : String) :
    Except String String × List NetEvent :=
  request net (setPowerCmd power effect duration)

def On (net : Net) : Except String String × List NetEvent :=
  SetPower net "on" "smooth" "1000"

def Off (net : Net) : Except String String × List NetEvent :=
  SetPower net "off" "smooth" "1000"

def SetName (net : Net) (name : String) : Except String String × List NetEvent :=
  request net (setNameCmd name)

/-! ### GetProp -/

/-- Unmarshal of a result payload into `[]string` starting from
`make([]string, 0)`: a non-array (or invalid) payload is a type error that
leaves the empty slice; a non-string element is a type error that leaves the
zero string for that position while decoding continues. -/
def goUnmarshalStrings (res : String) : List String :=
  match jsonParse res with
  | some (Json.arr es) =>
    es.map (fun e =>
      match e with
      | Json.str s => s
      | _ => "")
  | _ => []

/-- One Go map assignment `m[k] = v`: overwrite the existing entry for `k`
or append a new one. -/
def goMapInsert (m : List (String × String)) (k v : String) :
    List (String × String) :=
  match m with
  | [] => [(k, v)]
  | (k2, w) :: rest =>
    if k2 = k then (k2, v) :: rest else (k2, w) :: goMapInsert rest k v

/-- The loop `for i, prop := range props { m[values[i]] = prop }` (run only
when the two lengths are equal, so it walks the positional zip). -/
def goMapBuild (values props : List String) : List (String × String) :=
  (values.zip props).foldl (fun m kv => goMapInsert m kv.1 kv.2) []

/-- Lookup in the built Go map. -/
def goMapGet (m : List (String × String)) (k : String) : Option String :=
  match m with
  | [] => none
  | (k2, v) :: rest => if k2 = k then some v else goMapGet rest k

/-- GetProp issues the encoded `get_prop` request, unmarshals the result
payload as a string slice, fail with `"Wrong response"` on a length
mismatch, otherwise zip the requested names with the values into a map. -/
def GetProp (net : Net) (values : List String) :
    Except String (List (String × String)) :=
  match (request net (getPropCmd values)).1 with
  | Except.error e => Except.error e
  | Except.ok res =>
    let props := goUnmarshalStrings res
    if props.length ≠ values.length then Except.error "Wrong response"
    else Except.ok (goMapBuild values props)

/-! ### Socket event counting for the transport claims -/

def openCount : List NetEvent → Nat
  | [] => 0
  | NetEvent.dialAttempt true :: rest => openCount rest + 1
  | _ :: rest => openCount rest

def closeCount : List NetEvent → Nat
  | [] => 0
  | NetEvent.close :: rest => closeCount rest + 1
  | _ :: rest => closeCount rest

/-! ### Helper lemmas -/

/-- A line that is not a valid JSON object leaves both response structs at
their zero values, so `response` fails with the empty message. -/
theorem response_not_object (line : String) (h : parsesAsObject line = false) :
    response line = Except.error "" := by
  cases hj : jsonParse line with
  | none => simp [response, goUnmarshalOk, goUnmarshalError, hj]
  | some j =>
    cases j <;>
      simp_all [response, goUnmarshalOk, goUnmarshalError, parsesAsObject, hj]

/-- Closed form of the right-appended quoted-name list in `getPropCmd`. -/
def joinQuoted : List String → String
  | [] => ""
  | v :: vs => "\"" ++ v ++ "\"," ++ joinQuoted vs

theorem foldl_quoted (l : List String) : ∀ init : String,
    l.foldl (fun cmd value => cmd ++ "\"" ++ value ++ "\",") init =
      init ++ joinQuoted l := by
  induction l with
  | nil => intro init; simp [joinQuoted]
  | cons v vs ih =>
    intro init
    rw [List.foldl_cons, ih]
    simp [joinQuoted, String.append_assoc]

theorem goMapInsert_append (m : List (String × String)) (k v : String)
    (h : k ∉ m.map Prod.fst) : goMapInsert m k v = m ++ [(k, v)] := by
  induction m with
  | nil => rfl
  | cons p rest ih =>
    obtain ⟨k2, w⟩ := p
    simp only [List.map_cons, List.mem_cons, not_or] at h
    obtain ⟨h1, h2⟩ := h
    have hne : ¬(k2 = k) := fun heq => h1 heq.symm
    simp [goMapInsert, hne, ih h2]

theorem foldl_insert_nodup (l : List (String × String)) :
    ∀ acc : List (String × String),
      (acc.map Prod.fst ++ l.map Prod.fst).Nodup →
      l.foldl (fun m kv => goMapInsert m kv.1 kv.2) acc = acc ++ l := by
  induction l with
  | nil => intro acc _; simp
  | cons kv t ih =>
    intro acc h
    obtain ⟨k, v⟩ := kv
    have hk : k ∉ acc.map Prod.fst := by
      rcases List.nodup_append.mp (by simpa using h) with ⟨_, _, hdisj⟩
      intro hmem
      exact hdisj hmem (by simp)
    have h2 : ((acc ++ [(k, v)]).map Prod.fst ++ t.map Prod.fst).Nodup := by
      simpa [List.append_assoc] using h
    calc ((k, v) :: t).foldl (fun m kv => goMapInsert m kv.1 kv.2) acc
        = t.foldl (fun m kv => goMapInsert m kv.1 kv.2) (goMapInsert acc k v) := rfl
      _ = t.foldl (fun m kv => goMapInsert m kv.1 kv.2) (acc ++ [(k, v)]) := by
          rw [goMapInsert_append acc k v hk]
      _ = (acc ++ [(k, v)]) ++ t := ih (acc ++ [(k, v)]) h2
      _ = acc ++ ((k, v) :: t) := by simp

theorem goMapBuild_eq_zip (values props : List String) (hnd : values.Nodup)
    (hlen : props.length = values.length) :
    goMapBuild values props = values.zip props := by
  unfold goMapBuild
  have hkeys :
      ((([] : List (String × String)).map Prod.fst) ++
        (values.zip props).map Prod.fst).Nodup := by
    simp only [List.map_nil, List.nil_append]
    rw [List.map_fst_zip values props (le_of_eq hlen.symm)]
    exact hnd
  rw [foldl_insert_nodup (values.zip props) [] hkeys]
  simp

theorem mapStrRoundtrip (l : List String) :
    (l.map Json.str).map
      (fun e =>
        match e with
        | Json.str s => s
        | _ => "") = l := by
  induction l with
  | nil => rfl
  | cons a t ih =>
    simp only [List.map_cons] at *
    rw [ih]

theorem goUnmarshalStrings_of_strArr (res : String) (props : List String)
    (hdec : jsonParse res = some (Json.arr (props.map Json.str))) :
    goUnmarshalStrings res = props := by
  simp only [goUnmarshalStrings, hdec]
  exact mapStrRoundtrip props

theorem goMapGet_zip (values : List String) (hnd : values.Nodup) :
    ∀ (props : List String) (i : Nat) (h1 : i < values.length)
      (h2 : i < props.length),
      goMapGet (values.zip props) (values.get ⟨i, h1⟩) =
        some (props.get ⟨i, h2⟩) := by
  induction values with
  | nil => intro props i h1 _; exact absurd h1 (by simp)
  | cons v vt ih =>
    intro props i h1 h2
    cases props with
    | nil => exact absurd h2 (by simp)
    | cons p pt =>
      cases i with
      | zero => simp [goMapGet]
      | succ j =>
        have hj : j < vt.length := by simpa using h1
        have hj2 : j < pt.length := by simpa using h2
        have hv : v ∉ vt := (List.nodup_cons.mp hnd).1
        have hne : ¬(v = vt[j]) := by
          intro heq
          exact hv (heq ▸ List.getElem_mem hj)
        have hrec := ih (List.nodup_cons.mp hnd).2 pt j hj hj2
        simpa [goMapGet, hne, List.zip] using hrec

/-! ### Network environments used by concrete evaluations -/

/-- Device answering a `get_prop` round trip with `["on","100"]`. -/
def exNet : Net :=
  ⟨none, fun _ => Except.ok "\x7b\"id\":1,\"result\":[\"on\",\"100\"]\x7d"⟩

/-- Device answering a `get_prop` round trip with `["on","off"]`. -/
def dupNet : Net :=
  ⟨none, fun _ => Except.ok "\x7b\"id\":1,\"result\":[\"on\",\"off\"]\x7d"⟩

/-- Reachable device for exercising the transport trace. -/
def okNet : Net := ⟨none, fun _ => Except.ok "ok"⟩

/-! ### Claim theorems -/

/-- C1 (amended: requested names pairwise distinct): whenever the request
round trip succeeds with a payload that decodes as a string array `props`,
`GetProp` on distinct names returns the positional zip of names and values —
a map with exactly as many entries as names, each name looked up to the
value at its index — and fails with the protocol error `"Wrong response"`
when the array length differs from the name count; decoding
`{"id":1,"result":["on","100"]}` against `["power","bright"]` yields the
map `{"power":"on","bright":"100"}`. -/
theorem GetProp_zip_spec :
    (∀ (net : Net) (values props : List String) (res : String),
        values.Nodup →
        (request net (getPropCmd values)).1 = Except.ok res →
        jsonParse res = some (Json.arr (props.map Json.str)) →
        (props.length = values.length →
            GetProp net values = Except.ok (values.zip props)
            ∧ (values.zip props).length = values.length
            ∧ ∀ (i : Nat) (h1 : i < values.length) (h2 : i < props.length),
                goMapGet (values.zip props) (values.get ⟨i, h1⟩) =
                  some (props.get ⟨i, h2⟩))
        ∧ (props.length ≠ values.length →
            GetProp net values = Except.error "Wrong response"))
    ∧ GetProp exNet ["power", "bright"] =
        Except.ok [("power", "on"), ("bright", "100")] := by
  constructor
  · intro net values props res hnd hok hdec
    have hprops : goUnmarshalStrings res = props :=
      goUnmarshalStrings_of_strArr res props hdec
    constructor
    · intro hlen
      refine ⟨?_, ?_, ?_⟩
      · simp [GetProp, hok, hprops, hlen, goMapBuild_eq_zip values props hnd hlen]
      · simp [List.length_zip, hlen]
      · exact goMapGet_zip values hnd props
    · intro hlen
      simp [GetProp, hok, hprops, hlen]
  · rfl

/-- C1 witness: the theorem instantiated on the round trip of the spec's
example line against the names `["power","bright"]`. -/
theorem GetProp_zip_spec_witness :
    GetProp exNet ["power", "bright"] =
      Except.ok [("power", "on"), ("bright", "100")]
    ∧ goMapGet [("power", "on"), ("bright", "100")] "bright" = some "100" := by
  have h := (GetProp_zip_spec.1 exNet ["power", "bright"] ["on", "100"]
      "[\"on\",\"100\"]" (by decide) (by rfl) (by rfl)).1 (by rfl)
  exact ⟨h.1, h.2.2 1 (by decide) (by decide)⟩

/-- C1 counterexample: two requested names (`N = 2`) with a well-formed
two-value result yield a map with a single entry, because the duplicate key
collapses — refuting "a map with exactly N entries" for every name list. -/
theorem GetProp_duplicate_names_counterexample :
    GetProp dupNet ["power", "power"] = Except.ok [("power", "off")] := by
  rfl

/-- C2 (amended: a present `result` member — JSON `null` included — is a
success): the decoder parses the line as the success shape first; when the
`result` member is present the call succeeds with the raw result payload,
and when it is absent the line is re-decoded as the error shape and the call
fails with `error.message`; decoding
`{"id":1,"error":{"code":-1,"message":"unsupported method"}}` fails with
message "unsupported method". -/
theorem response_success_first :
    (∀ (line : String) (fields : List (String × Json)),
        jsonParse line = some (Json.obj fields) →
        (∀ v, fieldLast fields "result" = some v →
            response line = Except.ok (serialize v))
        ∧ (fieldLast fields "result" = none →
            response line = Except.error (errMessageOfFields fields)))
    ∧ response
        "\x7b\"id\":1,\"error\":\x7b\"code\":-1,\"message\":\"unsupported method\"\x7d\x7d" =
        Except.error "unsupported method" := by
  constructor
  · intro line fields hp
    constructor
    · intro v hv
      simp [response, goUnmarshalOk, hp, hv]
    · intro hn
      simp [response, goUnmarshalOk, goUnmarshalError, hp, hn]
  · rfl

/-- C2 witness: a success line with a present `result` member decodes to its
raw payload. -/
theorem response_success_first_witness :
    response "\x7b\"id\":9,\"result\":[\"ok\"]\x7d" = Except.ok "[\"ok\"]" :=
  (response_success_first.1 "\x7b\"id\":9,\"result\":[\"ok\"]\x7d"
      [("id", Json.num "9"), ("result", Json.arr [Json.str "ok"])] rfl).1
    (Json.arr [Json.str "ok"]) rfl

/-- C2 counterexample: the claim routes a present-but-null `result` to the
error path, but the code stores the raw bytes `null` in the non-nil
`json.RawMessage` field and succeeds with payload "null". -/
theorem response_null_result_success :
    response "\x7b\"id\":1,\"result\":null\x7d" = Except.ok "null" := rfl

/-- C3 (amended: the malformed-input error carries the empty message and is
not distinguishable from a device error with an empty message): a line that
is not a JSON object — empty, truncated, or structurally neither shape —
always fails, never succeeds, but the failure is `errors.New("")`, the very
error a well-formed device error response with an empty message produces. -/
theorem response_malformed_never_success :
    (∀ line : String, parsesAsObject line = false →
        response line = Except.error "" ∧ ∀ s, response line ≠ Except.ok s)
    ∧ response "\x7b\"id\":2,\"error\":\x7b\"code\":-5,\"message\":\"\"\x7d\x7d" =
        Except.error "" := by
  constructor
  · intro line h
    have he := response_not_object line h
    refine ⟨he, fun s hs => ?_⟩
    rw [he] at hs
    cases hs
  · rfl

/-- C3 witness: the theorem applied to the non-JSON line "x". -/
theorem response_malformed_never_success_witness :
    response "x" = Except.error "" ∧ response "x" ≠ Except.ok "x" :=
  ⟨(response_malformed_never_success.1 "x" rfl).1,
   (response_malformed_never_success.1 "x" rfl).2 "x"⟩

/-- C3 counterexample: decoding the empty string produces exactly the same
error value as decoding a well-formed device error response whose message is
empty — the two are not distinguishable. -/
theorem response_malformed_indistinguishable :
    response "" = Except.error ""
    ∧ response "\x7b\"id\":1,\"error\":\x7b\"code\":-1,\"message\":\"\"\x7d\x7d" =
        Except.error ""
    ∧ response "" =
        response "\x7b\"id\":1,\"error\":\x7b\"code\":-1,\"message\":\"\"\x7d\x7d" :=
  ⟨rfl, rfl, rfl⟩

/-- C4 (amended: only an absent `result` member takes the error path): for a
JSON-object line without a `result` member the decoder re-parses the line as
the error shape and fails, but a line with `"result": null` is treated as a
success with payload "null". -/
theorem response_absent_result_error :
    (∀ (line : String) (fields : List (String × Json)),
        jsonParse line = some (Json.obj fields) →
        (fieldLast fields "result" = none →
            response line = Except.error (goUnmarshalError line).message)
        ∧ (fieldLast fields "result" = some Json.null →
            response line = Except.ok "null"))
    ∧ response "\x7b\"id\":3,\"result\":null\x7d" = Except.ok "null" := by
  constructor
  · intro line fields hp
    constructor
    · intro hn
      simp [response, goUnmarshalOk, hp, hn]
    · intro hv
      simp [response, goUnmarshalOk, hp, hv, serialize]
  · rfl

/-- C4 witness: the theorem applied to a line without `result` (which fails
with the zero-valued message) and to a line with `"result": null`. -/
theorem response_absent_result_error_witness :
    response "\x7b\"id\":3\x7d" = Except.error ""
    ∧ response "\x7b\"id\":3,\"result\":null\x7d" = Except.ok "null" :=
  ⟨(response_absent_result_error.1 "\x7b\"id\":3\x7d"
      [("id", Json.num "3")] rfl).1 rfl,
   (response_absent_result_error.1 "\x7b\"id\":3,\"result\":null\x7d"
      [("id", Json.num "3"), ("result", Json.null)] rfl).2 rfl⟩

/-- C4 counterexample: a line with `"result": null` is treated as a success,
refuting "never treated as a success". -/
theorem response_null_is_success :
    isSuccess (response "\x7b\"id\":1,\"result\":null\x7d") = true := rfl

/-- C5 (code bug): the transport passes the command line to `fmt.Fprintf` as
the format string with no operands, so a command containing a percent sign —
here `SetName("100%")` — is written to the socket mangled
(`...100%!"(MISSING)]}`), not verbatim followed by CRLF. -/
theorem sendLine_percent_mangled :
    sendLine (setNameCmd "100%") =
      "\x7b\"id\":16,\"method\":\"set_name\",\"params\":[\"100%!\"(MISSING)]\x7d\r\n"
    ∧ sendLine (setNameCmd "100%") ≠ setNameCmd "100%" ++ "\r\n"
    ∧ (request okNet (setNameCmd "100%")).2 =
        [NetEvent.dialAttempt true,
         NetEvent.write
           "\x7b\"id\":16,\"method\":\"set_name\",\"params\":[\"100%!\"(MISSING)]\x7d\r\n",
         NetEvent.readLine, NetEvent.close] := by
  refine ⟨rfl, by decide, rfl⟩

/-- C6: `On()` and `Off()` delegate to `SetPower` with arguments
`"on"/"off"`, `"smooth"`, `"1000"`, so against every network environment
they produce the identical result and event trace (hence the identical
encoded command line, shown explicitly). -/
theorem On_Off_equiv_SetPower :
    (∀ net : Net,
        On net = SetPower net "on" "smooth" "1000"
        ∧ Off net = SetPower net "off" "smooth" "1000")
    ∧ setPowerCmd "on" "smooth" "1000" =
        "\x7b\"id\":6,\"method\":\"set_power\",\"params\":[\"on\",\"smooth\",1000]\x7d"
    ∧ setPowerCmd "off" "smooth" "1000" =
        "\x7b\"id\":6,\"method\":\"set_power\",\"params\":[\"off\",\"smooth\",1000]\x7d" :=
  ⟨fun _ => ⟨rfl, rfl⟩, rfl, rfl⟩

/-- C7 (code bug in the older source file): `SetAdjust("increase","bright")`
in goyeelight.go encodes `prop` with an opening quote but no closing quote,
producing a line that is not valid JSON; the current source file encodes
both parameters fully quoted. -/
theorem setAdjustOld_missing_quote :
    setAdjustCmdOld "increase" "bright" =
      "\x7b\"id\":15,\"method\":\"set_adjust\",\"params\":[\"increase\",\"bright]\x7d"
    ∧ jsonParse (setAdjustCmdOld "increase" "bright") = none
    ∧ setAdjustCmd "increase" "bright" =
      "\x7b\"id\":15,\"method\":\"set_adjust\",\"params\":[\"increase\",\"bright\"]\x7d"
    ∧ jsonParse (setAdjustCmd "increase" "bright") =
        some (Json.obj
          [("id", Json.num "15"), ("method", Json.str "set_adjust"),
           ("params", Json.arr [Json.str "increase", Json.str "bright"])]) :=
  ⟨rfl, rfl, rfl, rfl⟩

/-- C8: every call of the request primitive opens at most one socket; when
the dial succeeds the trace contains exactly one successful dial and exactly
one close, close counts always equal open counts, and the close is the last
socket event before the call returns — on the read-success and read-failure
paths alike. -/
theorem request_socket_discipline :
    ∀ (net : Net) (cmd : String),
      openCount (request net cmd).2 ≤ 1
      ∧ closeCount (request net cmd).2 = openCount (request net cmd).2
      ∧ (net.dialErr = none →
          openCount (request net cmd).2 = 1
          ∧ closeCount (request net cmd).2 = 1
          ∧ (request net cmd).2.getLast? = some NetEvent.close) := by
  intro net cmd
  cases h : net.dialErr with
  | some e =>
    simp only [request, h]
    exact ⟨Nat.zero_le 1, rfl, fun hn => Option.noConfusion hn⟩
  | none =>
    cases hd : net.device (sendLine cmd) with
    | error e =>
      simp only [request, h, hd]
      exact ⟨Nat.le.refl, rfl, fun _ => ⟨rfl, rfl, rfl⟩⟩
    | ok data =>
      simp only [request, h, hd]
      exact ⟨Nat.le.refl, rfl, fun _ => ⟨rfl, rfl, rfl⟩⟩

/-- C8 witness: the theorem applied to a reachable device. -/
theorem request_socket_discipline_witness :
    openCount (request okNet "cmd").2 = 1
    ∧ closeCount (request okNet "cmd").2 = 1
    ∧ (request okNet "cmd").2.getLast? = some NetEvent.close :=
  (request_socket_discipline okNet "cmd").2.2 rfl

/-- C9: the `get_prop` command line is the fixed prefix followed by each
requested name quoted and suffixed with a comma — leaving a trailing comma
after the last name of a non-empty list — and the empty name list encodes
the exact literal with an empty params array. -/
theorem getPropCmd_encoding :
    (∀ values : List String,
        getPropCmd values =
          "\x7b\"id\":1,\"method\":\"get_prop\",\"params\":[" ++
            joinQuoted values ++ "]\x7d")
    ∧ getPropCmd [] = "\x7b\"id\":1,\"method\":\"get_prop\",\"params\":[]\x7d"
    ∧ getPropCmd ["power", "bright"] =
        "\x7b\"id\":1,\"method\":\"get_prop\",\"params\":[\"power\",\"bright\",]\x7d" := by
  refine ⟨fun values => ?_, rfl, rfl⟩
  unfold getPropCmd
  rw [foldl_quoted, String.append_assoc]

/-- C10: a line that is not a JSON object — so that `json.Unmarshal` fails
for the success shape and for the error shape alike, as with the empty
string or truncated bytes — makes `response` return an error whose message
is the empty string (the zero-valued error struct), identical to the result
of decoding a device error response with an empty message. -/
theorem response_malformed_empty_message :
    (∀ line : String, parsesAsObject line = false →
        response line = Except.error "")
    ∧ response "\x7b\"id\":4,\"error\":\x7b\"code\":0,\"message\":\"\"\x7d\x7d" =
        Except.error "" :=
  ⟨fun line h => response_not_object line h, rfl⟩

/-- C10 witness: the theorem applied to the truncated line "[1". -/
theorem response_malformed_empty_message_witness :
    parsesAsObject "[1" = false ∧ response "[1" = Except.error "" :=
  ⟨rfl, response_malformed_empty_message.1 "[1" rfl⟩

end Goyeelight
